import Mathlib

/-!
Verification of the plagiarism-detection engine implemented in `src/app.py`.

The Python functions `clean_text`, `calculate_similarity`, `check_plagiarism`,
the inline risk classifier of `show_student_dashboard`, and the CSV-backed
store functions `save_submission_to_db` / `get_previous_submissions` are
embedded as executable Lean definitions.  Python strings are modelled as
`List Char`; dynamically-typed values that may or may not be strings are
modelled by `PyVal`; floating-point scores are modelled by exact rationals.
Whitespace is modelled by the ASCII whitespace class that Python's `\s`,
`str.split()` and `str.strip()` all agree on for ASCII text, and
`Char.toLower` models `str.lower()` (both only differ from Python on exotic
non-ASCII code points, which end up as separators either way).
-/

namespace PlagiarismDetect

/-- A Python value handed to the scoring functions: either a string or a
non-string value carrying only its truthiness. -/
inductive PyVal where
  | str (s : List Char)
  | nonStr (truthy : Bool)
deriving DecidableEq

/-- Python truthiness: a string is falsy iff empty; other values carry it. -/
def pyTruthy : PyVal → Bool
  | .str s => !s.isEmpty
  | .nonStr t => t

/-- Python `isinstance(v, str)`. -/
def isStr : PyVal → Bool
  | .str _ => true
  | .nonStr _ => false

/-- The ASCII whitespace class matched by Python's regex `\s` on ASCII text. -/
def isPySpace (c : Char) : Bool :=
  c = ' ' || c = '\t' || c = '\n' || c = '\r' || c = '\x0b' || c = '\x0c'

/-- Membership in the regex class `[a-z]`. -/
def isLowerAlpha (c : Char) : Bool :=
  'a' ≤ c && c ≤ 'z'

/-- The per-character effect of `text.lower()` followed by
`re.sub(r'[^a-z\s]', ' ', text)` (src/app.py lines 25-28): lower-case the
character; keep it if it is a lowercase Latin letter or whitespace, replace
it by a space otherwise. -/
def normChar (c : Char) : Char :=
  let l := c.toLower
  if isLowerAlpha l || isPySpace l then l else ' '

/-- Accumulator-based splitter: `splitWsAux l acc` splits `l` into maximal
runs of non-whitespace characters, with `acc` the (reversed) current run. -/
def splitWsAux : List Char → List Char → List (List Char)
  | [], acc => if acc = [] then [] else [acc.reverse]
  | c :: cs, acc =>
    if isPySpace c then
      (if acc = [] then splitWsAux cs [] else acc.reverse :: splitWsAux cs [])
    else splitWsAux cs (c :: acc)

/-- Python `text.split()`: split on runs of whitespace, dropping empties. -/
def splitWs (l : List Char) : List (List Char) :=
  splitWsAux l []

/-- Helper for `joinWords`: the tail of `' '.join(ws)`. -/
def joinTail : List (List Char) → List Char
  | [] => []
  | w :: ws => ' ' :: (w ++ joinTail ws)

/-- Python `' '.join(ws)`. -/
def joinWords : List (List Char) → List Char
  | [] => []
  | w :: ws => w ++ joinTail ws

/-- The body of `clean_text` for a string input (src/app.py lines 19-31):
return `""` for a blank string, otherwise lower-case, replace every
character outside `[a-z\s]` by a space, and collapse whitespace via
`' '.join(text.split())`. -/
def cleanList (cs : List Char) : List Char :=
  if cs.all isPySpace then [] else joinWords (splitWs (cs.map normChar))

/-- `clean_text` (src/app.py lines 19-31): non-string input yields `""`. -/
def clean_text : PyVal → List Char
  | .nonStr _ => []
  | .str s => cleanList s

/-- `calculate_similarity` (src/app.py lines 33-58): falsy input scores 0;
clean both texts; cleaned texts shorter than 50 characters score 0; then
Jaccard similarity of the word sets, scaled to 100 and capped at 100. -/
def calculate_similarity (text1 text2 : PyVal) : ℚ :=
  if pyTruthy text1 = false ∨ pyTruthy text2 = false then 0
  else
    let c1 := clean_text text1
    let c2 := clean_text text2
    if c1.length < 50 ∨ c2.length < 50 then 0
    else
      let words1 : Finset (List Char) := (splitWs c1).toFinset
      let words2 : Finset (List Char) := (splitWs c2).toFinset
      let common := words1 ∩ words2
      let allWords := words1 ∪ words2
      if allWords = ∅ then 0
      else
        let scaled := ((common.card : ℚ) / (allWords.card : ℚ)) * 100
        if scaled ≤ 100 then scaled else 100

/-- One iteration of the loop in `check_plagiarism` (src/app.py lines 67-71):
skip entries that are falsy or not strings; otherwise keep the running
maximum of the pair scores. -/
def scanStep (new_text : PyVal) (acc : ℚ) (p : PyVal) : ℚ :=
  if pyTruthy p = true ∧ isStr p = true then
    (if calculate_similarity new_text p > acc then calculate_similarity new_text p else acc)
  else acc

/-- `check_plagiarism` (src/app.py lines 60-74): empty corpus scores 0;
otherwise the maximum pair score over the valid entries, reported only
when at least 10. -/
def check_plagiarism (new_text : PyVal) (previous_texts : List PyVal) : ℚ :=
  if previous_texts = [] then 0
  else
    let m := previous_texts.foldl (scanStep new_text) 0
    if m ≥ 10 then m else 0

/-- The four risk labels of the inline classifier. -/
inductive RiskLabel where
  | Original | Low | Moderate | High
deriving DecidableEq

/-- The inline classifier of `show_student_dashboard` (src/app.py lines
464-476): `score == 0` is Original, `score < 30` is Low, `score < 70` is
Moderate, anything else is High. -/
def classify (score : ℚ) : RiskLabel :=
  if score = 0 then .Original
  else if score < 30 then .Low
  else if score < 70 then .Moderate
  else .High

/-- A row of `database/submissions.csv`, with the columns written by
`save_submission_to_db` (src/app.py lines 198-202 and 253-265). -/
structure Row where
  id : Nat
  student_name : List Char
  student_id : List Char
  filename : List Char
  file_type : List Char
  word_count : Nat
  char_count : Nat
  text_preview : List Char
  submission_time : List Char
  plagiarism_score : ℚ
  status : List Char
deriving DecidableEq

/-- The persistent state touched by `save_submission_to_db`: the submissions
table (`database/submissions.csv`) and the saved upload files (`uploads/`),
tracked by filename. -/
structure StoreState where
  table : List Row
  files : List (List Char)
deriving DecidableEq

/-- The caller-supplied arguments of `save_submission_to_db`, together with
the commit timestamp (`datetime.now()` at line 262 is modelled as an input). -/
structure SubInput where
  student_name : List Char
  student_id : List Char
  filename : List Char
  file_type : List Char
  text_content : List Char
  plagiarism_score : ℚ
  submission_time : List Char
deriving DecidableEq

/-- The row built by `save_submission_to_db` (src/app.py lines 253-265):
`id = len(df) + 1`, the upper-cased file type, derived word and character
counts, and only the first 300 characters of the text as `text_preview`. -/
def mkRow (numExisting : Nat) (inp : SubInput) : Row :=
  { id := numExisting + 1
    student_name := inp.student_name
    student_id := inp.student_id
    filename := inp.filename
    file_type := inp.file_type.map Char.toUpper
    word_count := (splitWs inp.text_content).length
    char_count := inp.text_content.length
    text_preview := inp.text_content.take 300
    submission_time := inp.submission_time
    plagiarism_score := inp.plagiarism_score
    status := "Submitted".data }

/-- `save_submission_to_db` (src/app.py lines 248-279).  The body runs under
one `try`: read the CSV, append the new row, rewrite the CSV, then write the
uploaded file under `uploads/`; any exception reaches the handler, which
returns `False`.  `csvWriteFails` models an exception at or before the CSV
rewrite (including a failing `pd.read_csv`), leaving the table untouched;
`fileSaveFails` models an exception while saving the upload file, which is
raised only after the CSV rewrite has already succeeded. -/
def save_submission_to_db (st : StoreState) (inp : SubInput)
    (csvWriteFails fileSaveFails : Bool) : StoreState × Bool :=
  if csvWriteFails then (st, false)
  else
    let st1 : StoreState := { st with table := st.table ++ [mkRow st.table.length inp] }
    if fileSaveFails then (st1, false)
    else ({ st1 with files := st1.files ++ [inp.filename] }, true)

/-- `get_previous_submissions` (src/app.py lines 281-290): the
`text_preview` column of the submissions table, as a list of strings.  Every
stored row has a string preview, so `dropna().astype(str)` is the identity
here. -/
def get_previous_submissions (st : StoreState) : List PyVal :=
  st.table.map (fun r => PyVal.str r.text_preview)

/-- A sequence of successful commits, each calling `save_submission_to_db`
on the state left by the previous one. -/
def commitAll (st : StoreState) : List SubInput → StoreState
  | [] => st
  | inp :: rest => commitAll (save_submission_to_db st inp false false).1 rest

/-- The store as `init_database` leaves it before any submission. -/
def emptyStore : StoreState :=
  { table := [], files := [] }

/-- The entry filter of the scan loop (src/app.py line 68):
`prev_text and isinstance(prev_text, str)`. -/
def validEntry (p : PyVal) : Bool :=
  pyTruthy p && isStr p

/-! Specification-side definitions, written from the words of the spec's
canonicalization and pair-scoring description, to be compared with the
embedding of the source code. -/

/-- Canonicalized text per the spec: lower-case, replace every character
that is not a lowercase Latin letter or whitespace by a space, collapse
whitespace. -/
def specCanonicalize (s : List Char) : List Char :=
  joinWords (splitWs (s.map normChar))

/-- The canonicalized token set per the spec: the set of tokens obtained by
splitting the canonicalized text on whitespace. -/
def specTokens (s : List Char) : Finset (List Char) :=
  (splitWs (specCanonicalize s)).toFinset

/-- The pair score per the spec: 0 below the minimum-length gate, 0 on an
empty union, otherwise `min(100 * intersectionSize / unionSize, 100)`. -/
def specPairScore (a b : List Char) : ℚ :=
  if (specCanonicalize a).length < 50 ∨ (specCanonicalize b).length < 50 then 0
  else if specTokens a ∪ specTokens b = ∅ then 0
  else min (100 * ((specTokens a ∩ specTokens b).card : ℚ) / ((specTokens a ∪ specTokens b).card : ℚ)) 100

/-! Concrete sample texts used by counterexamples and witnesses. -/

/-- A text with only 4 distinct tokens whose cleaned form has 55 characters,
so it passes the code's 50-character gate. -/
def sampleLongText : List Char :=
  "aaaaaaaaaaaaa bbbbbbbbbbbbb ccccccccccccc ddddddddddddd".data

/-- A text with 5 distinct tokens whose cleaned form has only 9 characters,
so it fails the code's 50-character gate. -/
def fiveTokenText : List Char :=
  "a b c d e".data

/-- A short text whose cleaned form is below 50 characters. -/
def shortText : List Char :=
  "hello world".data

/-- A concrete submission used by store counterexamples and witnesses. -/
def sampleInput : SubInput :=
  { student_name := "Jane Smith".data
    student_id := "student2".data
    filename := "essay.txt".data
    file_type := "txt".data
    text_content := "hello world".data
    plagiarism_score := 0
    submission_time := "2026-10-12 00:00:00".data }

/-- A 301-character text: 300 copies of 'a' then 'b'. -/
def longTextA : List Char :=
  List.replicate 300 'a' ++ ['b']

/-- A 301-character text agreeing with `longTextA` on its first 300
characters but differing at position 300. -/
def longTextB : List Char :=
  List.replicate 300 'a' ++ ['c']

/-- A submission carrying `longTextA`. -/
def inputA : SubInput :=
  { sampleInput with text_content := longTextA }

/-- A submission by a different student carrying `longTextB`. -/
def inputB : SubInput :=
  { sampleInput with student_name := "John Doe".data, text_content := longTextB }

/-! General lemmas about the splitter and the cleaning pipeline. -/

theorem splitWsAux_eq_nil (l : List Char) : ∀ acc : List Char,
    (splitWsAux l acc = [] ↔ (l.all isPySpace ∧ acc = [])) := by
  induction l with
  | nil =>
    intro acc
    by_cases h : acc = [] <;> simp [splitWsAux, h]
  | cons c cs ih =>
    intro acc
    by_cases hc : isPySpace c
    · by_cases h : acc = [] <;> simp [splitWsAux, hc, h, ih]
    · simp [splitWsAux, hc, ih]

theorem splitWs_eq_nil (l : List Char) : splitWs l = [] ↔ l.all isPySpace := by
  simpa using splitWsAux_eq_nil l []

theorem splitWsAux_mem (l : List Char) : ∀ acc w, (∀ c ∈ acc, isPySpace c = false) →
    w ∈ splitWsAux l acc → w ≠ [] ∧ ∀ c ∈ w, isPySpace c = false := by
  induction l with
  | nil =>
    intro acc w hacc hw
    by_cases h : acc = []
    · simp [splitWsAux, h] at hw
    · simp only [splitWsAux, if_neg h, List.mem_singleton] at hw
      subst hw
      refine ⟨by simpa using h, fun c hc => hacc c (List.mem_reverse.mp hc)⟩
  | cons c cs ih =>
    intro acc w hacc hw
    by_cases hc : isPySpace c
    · by_cases h : acc = []
      · simp only [splitWsAux, if_pos hc, if_pos h] at hw
        exact ih [] w (by simp) hw
      · simp only [splitWsAux, if_pos hc, if_neg h, List.mem_cons] at hw
        rcases hw with hw | hw
        · subst hw
          refine ⟨by simpa using h, fun d hd => hacc d (List.mem_reverse.mp hd)⟩
        · exact ih [] w (by simp) hw
    · simp only [splitWsAux, if_neg hc] at hw
      refine ih (c :: acc) w ?_ hw
      intro d hd
      rcases List.mem_cons.mp hd with hd | hd
      · subst hd; simpa using hc
      · exact hacc d hd

theorem mem_splitWs (l w : List Char) (hw : w ∈ splitWs l) :
    w ≠ [] ∧ ∀ c ∈ w, isPySpace c = false :=
  splitWsAux_mem l [] w (by simp) hw

theorem normChar_of_space (c : Char) (h : isPySpace c = true) : normChar c = c := by
  simp only [isPySpace, Bool.or_eq_true, decide_eq_true_eq] at h
  rcases h with ((((h | h) | h) | h) | h) | h <;> subst h <;> decide

theorem cleanList_eq_specCanonicalize (s : List Char) :
    cleanList s = specCanonicalize s := by
  unfold cleanList specCanonicalize
  by_cases h : s.all isPySpace
  · rw [if_pos h]
    have hmap : s.map normChar = s := by
      have hfix : s.map normChar = s.map id :=
        List.map_congr_left fun c hc => normChar_of_space c (List.all_eq_true.mp h c hc)
      rw [hfix, List.map_id]
    rw [hmap, (splitWs_eq_nil s).mpr h]
    rfl
  · rw [if_neg h]

theorem splitWs_cleanList_ne_nil (cs : List Char) (h : cleanList cs ≠ []) :
    splitWs (cleanList cs) ≠ [] := by
  intro hnil
  rw [splitWs_eq_nil] at hnil
  unfold cleanList at h hnil
  by_cases hall : cs.all isPySpace
  · exact h (by rw [if_pos hall])
  · rw [if_neg hall] at h hnil
    cases hws : splitWs (cs.map normChar) with
    | nil => exact h (by rw [hws]; rfl)
    | cons w rest =>
      obtain ⟨hne, hfree⟩ := mem_splitWs _ w (by rw [hws]; exact List.mem_cons_self _ _)
      cases w with
      | nil => exact hne rfl
      | cons c w' =>
        have hc : c ∈ joinWords (splitWs (cs.map normChar)) := by
          rw [hws]
          exact List.mem_append_left _ (List.mem_cons_self _ _)
        have hsp := List.all_eq_true.mp hnil c hc
        have hcfree := hfree c (List.mem_cons_self _ _)
        simp [hcfree] at hsp

/-- Self-similarity of any text passing the 50-character gate: the word set
is intersected and unioned with itself, so the Jaccard ratio is 1. -/
theorem selfSim100 (cs : List Char) (h : 50 ≤ (cleanList cs).length) :
    calculate_similarity (.str cs) (.str cs) = 100 := by
  have hne : cs ≠ [] := by
    intro hcs
    subst hcs
    simp [cleanList] at h
  have hclean : cleanList cs ≠ [] := by
    intro h0
    rw [h0] at h
    simp at h
  have hS : splitWs (cleanList cs) ≠ [] := splitWs_cleanList_ne_nil cs hclean
  obtain ⟨w, hw⟩ := List.exists_mem_of_ne_nil _ hS
  have hmem : w ∈ (splitWs (cleanList cs)).toFinset := List.mem_toFinset.mpr hw
  have hcard : (((splitWs (cleanList cs)).toFinset.card : ℚ)) ≠ 0 := by
    exact_mod_cast Finset.card_ne_zero_of_mem hmem
  simp only [calculate_similarity, clean_text]
  rw [if_neg (by simp [pyTruthy, hne]), if_neg (by omega), Finset.inter_self, Finset.union_self,
    if_neg (by simp [List.toFinset_eq_empty_iff, hS]), div_self hcard]
  norm_num

theorem sim_nonneg (a b : PyVal) : 0 ≤ calculate_similarity a b := by
  simp only [calculate_similarity]
  split_ifs with h1 h2 h3 h4
  · exact le_rfl
  · exact le_rfl
  · exact le_rfl
  · positivity
  · norm_num

theorem sim_invalid (c p : PyVal) (h : ¬(pyTruthy p = true ∧ isStr p = true)) :
    calculate_similarity c p = 0 := by
  simp only [calculate_similarity]
  by_cases hc : pyTruthy c = false
  · rw [if_pos (Or.inl hc)]
  · cases p with
    | str s =>
      have hfalse : pyTruthy (PyVal.str s) = false := by
        cases hpt : pyTruthy (PyVal.str s) with
        | false => rfl
        | true => exact absurd ⟨hpt, rfl⟩ h
      rw [if_pos (Or.inr hfalse)]
    | nonStr t =>
      cases t with
      | false => rw [if_pos (Or.inr (show pyTruthy (PyVal.nonStr false) = false from rfl))]
      | true =>
        have hcond : ¬(pyTruthy c = false ∨ pyTruthy (PyVal.nonStr true) = false) := by
          rintro (h1 | h2)
          · exact hc h1
          · simp [pyTruthy] at h2
        have hshort : (clean_text (PyVal.nonStr true)).length < 50 := by
          simp [clean_text]
        rw [if_neg hcond, if_pos (Or.inr hshort)]

theorem scanStep_eq_max (c : PyVal) (acc : ℚ) (p : PyVal) (hacc : 0 ≤ acc) :
    scanStep c acc p = max acc (calculate_similarity c p) := by
  unfold scanStep
  by_cases h : pyTruthy p = true ∧ isStr p = true
  · rw [if_pos h]
    rcases le_or_lt (calculate_similarity c p) acc with hle | hlt
    · rw [if_neg (not_lt.mpr hle), max_eq_left hle]
    · rw [if_pos hlt, max_eq_right hlt.le]
  · rw [if_neg h, sim_invalid c p h, max_eq_left hacc]

theorem le_scanStep (c : PyVal) (acc : ℚ) (p : PyVal) : acc ≤ scanStep c acc p := by
  unfold scanStep
  split_ifs with h1 h2
  · linarith
  · exact le_rfl
  · exact le_rfl

theorem le_foldl_scanStep (c : PyVal) (l : List PyVal) : ∀ acc : ℚ,
    acc ≤ l.foldl (scanStep c) acc := by
  induction l with
  | nil => intro acc; simp
  | cons p ps ih =>
    intro acc
    calc acc ≤ scanStep c acc p := le_scanStep c acc p
    _ ≤ ps.foldl (scanStep c) (scanStep c acc p) := ih _

theorem foldl_scanStep_eq (c : PyVal) (l : List PyVal) : ∀ acc : ℚ, 0 ≤ acc →
    l.foldl (scanStep c) acc = (l.map (calculate_similarity c)).foldl max acc := by
  induction l with
  | nil => intro acc _; rfl
  | cons p ps ih =>
    intro acc hacc
    simp only [List.foldl_cons, List.map_cons]
    rw [scanStep_eq_max c acc p hacc]
    exact ih _ (le_trans hacc (le_max_left _ _))

theorem check_plagiarism_nonneg (c : PyVal) (l : List PyVal) :
    0 ≤ check_plagiarism c l := by
  simp only [check_plagiarism]
  split_ifs with h1 h2
  · exact le_rfl
  · exact le_foldl_scanStep c l 0
  · exact le_rfl

theorem foldl_scanStep_filter (c : PyVal) (l : List PyVal) : ∀ acc : ℚ,
    (l.filter validEntry).foldl (scanStep c) acc = l.foldl (scanStep c) acc := by
  induction l with
  | nil => intro acc; rfl
  | cons p ps ih =>
    intro acc
    by_cases h : validEntry p = true
    · rw [List.filter_cons_of_pos h, List.foldl_cons, List.foldl_cons, ih]
    · rw [List.filter_cons_of_neg h, List.foldl_cons, ih]
      have hstep : scanStep c acc p = acc := by
        unfold scanStep
        rw [if_neg (by simpa [validEntry, Bool.and_eq_true] using h)]
      rw [hstep]

/-! Claim theorems. -/

/-- Claim C1: for every pair of input texts, the pair scorer returns exactly
the specified Jaccard computation over the canonicalized token sets: both
texts are canonicalized, the minimum-length gate returns 0 when either
canonicalized text is below the configured minimum (50 characters of
canonicalized text), an empty union returns 0, and otherwise the result is
`min(100 * intersectionSize / unionSize, 100)`. -/
theorem claim_C1_pair_score_is_spec_jaccard (a b : List Char) :
    calculate_similarity (.str a) (.str b) = specPairScore a b := by
  by_cases ha : a = []
  · subst ha
    have h0 : specCanonicalize [] = [] := rfl
    simp [calculate_similarity, pyTruthy, specPairScore, h0]
  · by_cases hb : b = []
    · subst hb
      have h0 : specCanonicalize [] = [] := rfl
      simp [calculate_similarity, pyTruthy, specPairScore, h0]
    · have hA := cleanList_eq_specCanonicalize a
      have hB := cleanList_eq_specCanonicalize b
      simp only [calculate_similarity, clean_text, specPairScore, specTokens, hA, hB]
      rw [if_neg (by simp [pyTruthy, ha, hb])]
      by_cases hlen : (specCanonicalize a).length < 50 ∨ (specCanonicalize b).length < 50
      · rw [if_pos hlen, if_pos hlen]
      · rw [if_neg hlen, if_neg hlen]
        by_cases hU : (splitWs (specCanonicalize a)).toFinset ∪
            (splitWs (specCanonicalize b)).toFinset = ∅
        · rw [if_pos hU, if_pos hU]
        · rw [if_neg hU, if_neg hU, min_def]
          have harith :
              ((((splitWs (specCanonicalize a)).toFinset ∩
                  (splitWs (specCanonicalize b)).toFinset).card : ℚ) /
                (((splitWs (specCanonicalize a)).toFinset ∪
                  (splitWs (specCanonicalize b)).toFinset).card : ℚ)) * 100 =
              100 * (((splitWs (specCanonicalize a)).toFinset ∩
                  (splitWs (specCanonicalize b)).toFinset).card : ℚ) /
                (((splitWs (specCanonicalize a)).toFinset ∪
                  (splitWs (specCanonicalize b)).toFinset).card : ℚ) := by
            ring
          rw [harith]

/-- Claim C3: over `[0,100]` the classifier maps 0 to Original, `(0,30)` to
Low, `[30,70)` to Moderate, and `[70,100]` to High, with the stated values
at the boundaries 0, 29.9, 30, 69.9 and 70. -/
theorem claim_C3_classifier_boundaries (s : ℚ) (_h0 : 0 ≤ s) (_h100 : s ≤ 100) :
    (s = 0 → classify s = RiskLabel.Original) ∧
    (0 < s → s < 30 → classify s = RiskLabel.Low) ∧
    (30 ≤ s → s < 70 → classify s = RiskLabel.Moderate) ∧
    (70 ≤ s → classify s = RiskLabel.High) ∧
    classify 0 = RiskLabel.Original ∧
    classify (299/10) = RiskLabel.Low ∧
    classify 30 = RiskLabel.Moderate ∧
    classify (699/10) = RiskLabel.Moderate ∧
    classify 70 = RiskLabel.High := by
  refine ⟨?_, ?_, ?_, ?_, ?_, ?_, ?_, ?_, ?_⟩
  · intro hs
    simp [classify, hs]
  · intro h1 h2
    unfold classify
    rw [if_neg (by linarith), if_pos h2]
  · intro h1 h2
    unfold classify
    rw [if_neg (by linarith), if_neg (by linarith), if_pos h2]
  · intro h1
    unfold classify
    rw [if_neg (by linarith), if_neg (by linarith), if_neg (by linarith)]
  · simp [classify]
  · unfold classify
    rw [if_neg (by norm_num), if_pos (by norm_num)]
  · unfold classify
    rw [if_neg (by norm_num), if_neg (by norm_num), if_pos (by norm_num)]
  · unfold classify
    rw [if_neg (by norm_num), if_neg (by norm_num), if_pos (by norm_num)]
  · unfold classify
    rw [if_neg (by norm_num), if_neg (by norm_num), if_neg (by norm_num)]

/-- Witness for C3 at the concrete score 50. -/
theorem claim_C3_witness : classify 50 = RiskLabel.Moderate :=
  (claim_C3_classifier_boundaries 50 (by norm_num) (by norm_num)).2.2.1
    (by norm_num) (by norm_num)

/-- Claim C7 fails on the code: `sampleLongText` has only 4 distinct
canonicalized tokens, yet it scores 100 (not 0) against itself, because the
implemented gate is cleaned-character-length below 50, not a 5-distinct-token
minimum. -/
theorem claim_C7_counterexample :
    (splitWs (cleanList sampleLongText)).toFinset.card < 5 ∧
    calculate_similarity (.str sampleLongText) (.str sampleLongText) ≠ 0 := by
  constructor
  · decide
  · rw [selfSim100 sampleLongText (by decide)]
    norm_num

/-- Claim C7 amended: every document whose canonicalized text is shorter
than 50 characters scores 0 against every other document — the code's
minimum-length gate is character-based, not token-based. -/
theorem claim_C7_minimum_length_gate (cs : List Char) (other : PyVal)
    (h : (cleanList cs).length < 50) :
    calculate_similarity (.str cs) other = 0 ∧
    calculate_similarity other (.str cs) = 0 := by
  constructor
  · simp only [calculate_similarity]
    by_cases h1 : pyTruthy (PyVal.str cs) = false ∨ pyTruthy other = false
    · rw [if_pos h1]
    · rw [if_neg h1, if_pos (Or.inl (show (clean_text (PyVal.str cs)).length < 50 from h))]
  · simp only [calculate_similarity]
    by_cases h1 : pyTruthy other = false ∨ pyTruthy (PyVal.str cs) = false
    · rw [if_pos h1]
    · rw [if_neg h1, if_pos (Or.inr (show (clean_text (PyVal.str cs)).length < 50 from h))]

/-- Witness for the amended C7 at a concrete short text. -/
theorem claim_C7_witness :
    calculate_similarity (.str shortText) (.str shortText) = 0 :=
  (claim_C7_minimum_length_gate shortText (.str shortText) (by decide)).1

/-- Claim C8 fails on the code as stated: `fiveTokenText` has 5 distinct
tokens, meeting the claimed token minimum, yet it scores 0 (not 100) against
itself because its cleaned form has only 9 characters, below the code's
50-character gate. -/
theorem claim_C8_counterexample :
    5 ≤ (splitWs (cleanList fiveTokenText)).toFinset.card ∧
    calculate_similarity (.str fiveTokenText) (.str fiveTokenText) = 0 := by
  constructor
  · decide
  · decide

/-- Claim C8 amended: every document whose canonicalized text has at least
50 characters — the code's actual minimum-length gate — scores exactly 100
against itself. -/
theorem claim_C8_self_similarity (cs : List Char)
    (h : 50 ≤ (cleanList cs).length) :
    calculate_similarity (.str cs) (.str cs) = 100 :=
  selfSim100 cs h

/-- Witness for the amended C8 at a concrete gate-passing text. -/
theorem claim_C8_witness :
    calculate_similarity (.str sampleLongText) (.str sampleLongText) = 100 :=
  claim_C8_self_similarity sampleLongText (by decide)

/-- Claim C2: the corpus scan returns 0 on an empty corpus; on a nonempty
corpus it returns the maximum pair score over all entries, except that a
maximum strictly below the reporting threshold 10 is replaced by 0; hence
the scan never returns a value strictly between 0 and 10. -/
theorem claim_C2_corpus_scan (cand : PyVal) (corpus : List PyVal) :
    (corpus = [] → check_plagiarism cand corpus = 0) ∧
    (∀ p ps, corpus = p :: ps →
      check_plagiarism cand corpus =
        if (ps.map (calculate_similarity cand)).foldl max (calculate_similarity cand p) < 10
        then 0
        else (ps.map (calculate_similarity cand)).foldl max (calculate_similarity cand p)) ∧
    ¬(0 < check_plagiarism cand corpus ∧ check_plagiarism cand corpus < 10) := by
  refine ⟨?_, ?_, ?_⟩
  · intro h
    simp [check_plagiarism, h]
  · intro p ps hc
    subst hc
    have hfold : (p :: ps).foldl (scanStep cand) 0 =
        (ps.map (calculate_similarity cand)).foldl max (calculate_similarity cand p) := by
      rw [foldl_scanStep_eq cand _ 0 le_rfl]
      simp only [List.map_cons, List.foldl_cons]
      rw [max_eq_right (sim_nonneg cand p)]
    simp only [check_plagiarism]
    rw [if_neg (List.cons_ne_nil p ps), hfold]
    rcases lt_or_le
        ((ps.map (calculate_similarity cand)).foldl max (calculate_similarity cand p)) 10
      with hlt | hle
    · rw [if_neg (show ¬((ps.map (calculate_similarity cand)).foldl max
          (calculate_similarity cand p) ≥ 10) from not_le.mpr hlt), if_pos hlt]
    · rw [if_pos (show (ps.map (calculate_similarity cand)).foldl max
          (calculate_similarity cand p) ≥ 10 from hle), if_neg (not_lt.mpr hle)]
  · rintro ⟨hpos, hlt⟩
    by_cases h : corpus = []
    · rw [h] at hpos
      simp [check_plagiarism] at hpos
    · simp only [check_plagiarism, if_neg h] at hpos hlt
      split_ifs at hpos hlt with h10
      · exact absurd h10 (not_le.mpr hlt)
      · exact lt_irrefl 0 hpos

/-- Witness for C2 on the empty corpus and on a concrete singleton corpus. -/
theorem claim_C2_witness :
    check_plagiarism (.str sampleLongText) [] = 0 ∧
    check_plagiarism (.str sampleLongText) [.str sampleLongText] = 100 := by
  constructor
  · exact (claim_C2_corpus_scan (.str sampleLongText) []).1 rfl
  · have h := (claim_C2_corpus_scan (.str sampleLongText) [.str sampleLongText]).2.1
      (.str sampleLongText) [] rfl
    rw [h]
    have hself := selfSim100 sampleLongText (by decide)
    rw [show (List.map (calculate_similarity (.str sampleLongText)) ([] : List PyVal)).foldl
        max (calculate_similarity (.str sampleLongText) (.str sampleLongText)) =
        calculate_similarity (.str sampleLongText) (.str sampleLongText) from rfl, hself]
    norm_num

/-- Claim C6: appending any entry to the corpus never decreases the scan
result. -/
theorem claim_C6_scan_monotone (cand : PyVal) (corpus : List PyVal) (e : PyVal) :
    check_plagiarism cand corpus ≤ check_plagiarism cand (corpus ++ [e]) := by
  by_cases h : corpus = []
  · rw [h]
    have h1 : check_plagiarism cand [] = 0 := by simp [check_plagiarism]
    rw [h1]
    exact check_plagiarism_nonneg cand ([] ++ [e])
  · have hne : corpus ++ [e] ≠ [] := by simp
    simp only [check_plagiarism, if_neg h, if_neg hne]
    have hm : corpus.foldl (scanStep cand) 0 ≤ (corpus ++ [e]).foldl (scanStep cand) 0 := by
      rw [List.foldl_append]
      exact le_foldl_scanStep cand [e] _
    split_ifs with h1 h2 h3
    · exact hm
    · exact absurd (show (corpus ++ [e]).foldl (scanStep cand) 0 ≥ 10 from
        le_trans h1 hm) h2
    · exact le_foldl_scanStep cand (corpus ++ [e]) 0
    · exact le_rfl

/-- Claim C10: the scoring pipeline is total — modelled here by total Lean
functions — and malformed input degrades to the empty token set and score 0:
non-string and empty inputs canonicalize to the empty string and score 0 on
either side of the pair scorer, and the corpus scan returns exactly what it
returns on the corpus restricted to its valid (truthy string) entries, i.e.
non-string or empty entries are skipped rather than failing the scan. -/
theorem claim_C10_totality (b : Bool) (u cand : PyVal) (corpus : List PyVal) :
    clean_text (.nonStr b) = [] ∧
    clean_text (.str []) = [] ∧
    calculate_similarity (.nonStr b) u = 0 ∧
    calculate_similarity u (.nonStr b) = 0 ∧
    calculate_similarity (.str []) u = 0 ∧
    calculate_similarity u (.str []) = 0 ∧
    check_plagiarism cand (corpus.filter validEntry) = check_plagiarism cand corpus := by
  refine ⟨rfl, rfl, ?_, ?_, ?_, ?_, ?_⟩
  · cases b with
    | false =>
      simp only [calculate_similarity]
      rw [if_pos (Or.inl (show pyTruthy (PyVal.nonStr false) = false from rfl))]
    | true =>
      simp only [calculate_similarity]
      by_cases hu : pyTruthy u = false
      · rw [if_pos (Or.inr hu)]
      · rw [if_neg (by rintro (h1 | h2); exacts [by simp [pyTruthy] at h1, hu h2]),
          if_pos (Or.inl (show (clean_text (PyVal.nonStr true)).length < 50 by
            simp [clean_text]))]
  · exact sim_invalid u (.nonStr b) (by simp [isStr])
  · simp only [calculate_similarity]
    rw [if_pos (Or.inl (show pyTruthy (PyVal.str []) = false from rfl))]
  · exact sim_invalid u (.str []) (by simp [pyTruthy])
  · by_cases h : corpus = []
    · subst h
      rfl
    · by_cases hf : corpus.filter validEntry = []
      · have hm : corpus.foldl (scanStep cand) 0 = 0 := by
          rw [← foldl_scanStep_filter cand corpus 0, hf]
          rfl
        simp [check_plagiarism, hf, h, hm]
      · simp only [check_plagiarism, if_neg h, if_neg hf]
        rw [foldl_scanStep_filter]

/-- Claim C4 fails on the code: when saving the uploaded file fails after
the CSV rewrite already succeeded, the caller is told the commit failed,
yet the new submission row is persisted and visible to a subsequent corpus
read. -/
theorem claim_C4_counterexample :
    (save_submission_to_db emptyStore sampleInput false true).2 = false ∧
    get_previous_submissions (save_submission_to_db emptyStore sampleInput false true).1 ≠
      get_previous_submissions emptyStore := by
  constructor
  · rfl
  · simp [save_submission_to_db, get_previous_submissions, emptyStore]

/-- Claim C4 amended: a failure at or before the CSV rewrite leaves the
store unchanged and reports failure, and a fully successful commit persists
the record in full and reports success; but a failure while saving the
upload file reports failure even though the submission row is already
persisted and visible — the commit is not atomic across its two writes. -/
theorem claim_C4_commit_failure_semantics (st : StoreState) (inp : SubInput) (b : Bool) :
    ((save_submission_to_db st inp true b).1 = st ∧
      (save_submission_to_db st inp true b).2 = false) ∧
    ((save_submission_to_db st inp false false).1.table =
        st.table ++ [mkRow st.table.length inp] ∧
      (save_submission_to_db st inp false false).2 = true) ∧
    ((save_submission_to_db st inp false true).1.table =
        st.table ++ [mkRow st.table.length inp] ∧
      (save_submission_to_db st inp false true).2 = false) :=
  ⟨⟨rfl, rfl⟩, ⟨rfl, rfl⟩, ⟨rfl, rfl⟩⟩

/-- Claim C5: the corpus text that later scans compare against is exactly
the stored 300-character preview, so two submissions agreeing on their
first 300 characters are indistinguishable to every subsequent corpus scan,
and text beyond the first 300 characters never affects a later candidate's
score. -/
theorem claim_C5_preview_truncation (st : StoreState) (a b : SubInput)
    (h : a.text_content.take 300 = b.text_content.take 300) :
    (get_previous_submissions (save_submission_to_db st a false false).1 =
      get_previous_submissions st ++ [PyVal.str (a.text_content.take 300)]) ∧
    (get_previous_submissions (save_submission_to_db st a false false).1 =
      get_previous_submissions (save_submission_to_db st b false false).1) ∧
    (∀ cand, check_plagiarism cand
        (get_previous_submissions (save_submission_to_db st a false false).1) =
      check_plagiarism cand
        (get_previous_submissions (save_submission_to_db st b false false).1)) := by
  have h1 : ∀ inp : SubInput,
      get_previous_submissions (save_submission_to_db st inp false false).1 =
        get_previous_submissions st ++ [PyVal.str (inp.text_content.take 300)] := by
    intro inp
    simp [save_submission_to_db, get_previous_submissions, mkRow]
  refine ⟨h1 a, ?_, ?_⟩
  · rw [h1 a, h1 b, h]
  · intro cand
    rw [h1 a, h1 b, h]

/-- Witness for C5: two 301-character texts differing only at position 300
leave the store indistinguishable to later scans. -/
theorem claim_C5_witness :
    get_previous_submissions (save_submission_to_db emptyStore inputA false false).1 =
      get_previous_submissions (save_submission_to_db emptyStore inputB false false).1 ∧
    check_plagiarism (PyVal.str shortText)
        (get_previous_submissions (save_submission_to_db emptyStore inputA false false).1) =
      check_plagiarism (PyVal.str shortText)
        (get_previous_submissions (save_submission_to_db emptyStore inputB false false).1) := by
  have h : inputA.text_content.take 300 = inputB.text_content.take 300 := by
    show longTextA.take 300 = longTextB.take 300
    unfold longTextA longTextB
    rw [List.take_left' (List.length_replicate 300 'a'), List.take_left' (List.length_replicate 300 'a')]
  exact ⟨(claim_C5_preview_truncation emptyStore inputA inputB h).2.1,
    (claim_C5_preview_truncation emptyStore inputA inputB h).2.2 (PyVal.str shortText)⟩

/-- Sequence of ids produced by a run of successful commits starting from
any state. -/
theorem commitAll_ids (l : List SubInput) : ∀ st : StoreState,
    (commitAll st l).table.map Row.id =
      st.table.map Row.id ++ List.range' (st.table.length + 1) l.length := by
  induction l with
  | nil =>
    intro st
    simp [commitAll]
  | cons inp rest ih =>
    intro st
    show (commitAll (save_submission_to_db st inp false false).1 rest).table.map Row.id = _
    rw [ih]
    have htab : (save_submission_to_db st inp false false).1.table =
        st.table ++ [mkRow st.table.length inp] := rfl
    rw [htab]
    have hlen : (st.table ++ [mkRow st.table.length inp]).length + 1 = st.table.length + 2 := by
      simp
    rw [hlen, List.map_append, List.length_cons, List.range'_succ, List.append_assoc]
    congr 1

/-- Claim C9: every successful commit assigns the new row the id
`(number of already-stored rows) + 1`; hence N successful sequential
commits from the empty store produce the ids `1, 2, ..., N` exactly —
distinct, sequential, increasing, without gaps or duplicates. -/
theorem claim_C9_sequential_ids :
    (∀ (st : StoreState) (inp : SubInput),
      (save_submission_to_db st inp false false).1.table.map Row.id =
        st.table.map Row.id ++ [st.table.length + 1]) ∧
    (∀ l : List SubInput,
      (commitAll emptyStore l).table.map Row.id = List.range' 1 l.length) := by
  constructor
  · intro st inp
    show (st.table ++ [mkRow st.table.length inp]).map Row.id = _
    simp [mkRow]
  · intro l
    have h := commitAll_ids l emptyStore
    simpa [emptyStore] using h

end PlagiarismDetect
